import Mathlib

/-!
A shallow embedding of the task-lifecycle core of the `flowbridge` task tool
(`src/main.rs`: `TaskStatus`, `Task`, `TaskStore` and its operations;
`src/tui.rs`: `AppMode`, `TaskForm`, `App` and its keyboard/mouse handlers),
together with theorems settling the specified properties.

Modelling conventions:
* `usize`/`u16` values become `Nat`; the Rust code only uses `saturating_sub`
  or guarded subtraction, which agrees with truncated `Nat` subtraction.
* `DateTime<Utc>` timestamps are abstracted to a `Nat` passed in by the caller
  (`Utc::now()` becomes the explicit `now` argument).
* `&mut self` methods become functions returning the updated value, paired
  with the Rust return value.
* Purely presentational collaborators (rendering, audio chime, calendar fetch,
  persistence `save()`) have no effect on the modelled state and are omitted.
-/

namespace Flowbridge

/-- `TaskStatus` from src/main.rs. -/
inductive TaskStatus
  | NotStarted
  | InProgress
  | Blocked
  | Complete
deriving DecidableEq

/-- `Task` from src/main.rs.  `created_at` is an abstract timestamp;
`completed` is the legacy backward-compatibility field. -/
structure Task where
  id : Nat
  description : String
  steps : List String
  current_step : Nat
  status : TaskStatus
  completed : Option Bool
  created_at : Nat
deriving DecidableEq

/-- `TaskStore` from src/main.rs. -/
structure TaskStore where
  tasks : List Task
  next_id : Nat
deriving DecidableEq

/-- `TaskStore::new`. -/
def TaskStore.new : TaskStore :=
  { tasks := [], next_id := 1 }

/-- Models the Rust pattern `if let Some(task) = self.get_task_mut(id) { ... }`
where the body mutates the task and produces a `bool` result:
`get_task_mut` is `self.tasks.iter_mut().find(|t| t.id == id)`, so the FIRST
task with the given id is transformed by `f`; `false` is returned when no task
matches (or when `f` reports failure). -/
def mutById (id : Nat) (f : Task → Task × Bool) : List Task → List Task × Bool
  | [] => ([], false)
  | t :: ts =>
    if t.id = id then ((f t).1 :: ts, (f t).2)
    else
      let r := mutById id f ts
      (t :: r.1, r.2)

/-- Like `mutById` but for bodies that do not report a `bool`; returns the
mutated task (the Rust borrow obtained from `get_task_mut`, after mutation),
or `none` when no task has the given id. -/
def mutTaskById (id : Nat) (f : Task → Task) : List Task → List Task × Option Task
  | [] => ([], none)
  | t :: ts =>
    if t.id = id then (f t :: ts, some (f t))
    else
      let r := mutTaskById id f ts
      (t :: r.1, r.2)

/-- `TaskStore::add_task`: appends a fresh `NotStarted` task with no steps and
returns its id. -/
def TaskStore.add_task (s : TaskStore) (description : String) (now : Nat) :
    TaskStore × Nat :=
  let id := s.next_id
  ({ tasks := s.tasks ++
      [{ id := id, description := description, steps := [], current_step := 0,
         status := TaskStatus.NotStarted, completed := none, created_at := now }],
     next_id := id + 1 }, id)

/-- `TaskStore::complete_task` (the `advance` operation): step forward if the
task has steps and is not at the last one, otherwise mark it `Complete`. -/
def TaskStore.complete_task (s : TaskStore) (id : Nat) : TaskStore × Bool :=
  let r := mutById id (fun t =>
    if t.steps ≠ [] ∧ t.current_step < t.steps.length - 1 then
      ({ t with current_step := t.current_step + 1 }, true)
    else
      ({ t with status := TaskStatus.Complete }, true)) s.tasks
  ({ s with tasks := r.1 }, r.2)

/-- `TaskStore::block_task`: rejected when the task is `Complete`. -/
def TaskStore.block_task (s : TaskStore) (id : Nat) : TaskStore × Bool :=
  let r := mutById id (fun t =>
    if t.status ≠ TaskStatus.Complete then
      ({ t with status := TaskStatus.Blocked }, true)
    else (t, false)) s.tasks
  ({ s with tasks := r.1 }, r.2)

/-- `TaskStore::unblock_task`: rejected unless `Blocked`; resumes to
`InProgress` when there is any progress or any steps, else `NotStarted`. -/
def TaskStore.unblock_task (s : TaskStore) (id : Nat) : TaskStore × Bool :=
  let r := mutById id (fun t =>
    if t.status = TaskStatus.Blocked then
      ({ t with status :=
          if t.current_step > 0 ∨ t.steps ≠ [] then TaskStatus.InProgress
          else TaskStatus.NotStarted }, true)
    else (t, false)) s.tasks
  ({ s with tasks := r.1 }, r.2)

/-- `TaskStore::reset_task`: rejected when the task is `Complete`; otherwise
sets `NotStarted` (leaving `current_step` and `steps` untouched). -/
def TaskStore.reset_task (s : TaskStore) (id : Nat) : TaskStore × Bool :=
  let r := mutById id (fun t =>
    if t.status ≠ TaskStatus.Complete then
      ({ t with status := TaskStatus.NotStarted }, true)
    else (t, false)) s.tasks
  ({ s with tasks := r.1 }, r.2)

/-- `TaskStore::remove_task`: `retain` of all other ids; returns whether the
length shrank. -/
def TaskStore.remove_task (s : TaskStore) (id : Nat) : TaskStore × Bool :=
  let kept := s.tasks.filter (fun t => decide (t.id ≠ id))
  ({ s with tasks := kept }, decide (kept.length < s.tasks.length))

/-- The first filter of `TaskStore::get_next_action`: non-complete,
non-blocked, with a non-empty, unfinished step list. -/
def next_with_steps (t : Task) : Bool :=
  decide (t.status ≠ TaskStatus.Complete ∧ t.status ≠ TaskStatus.Blocked ∧
    t.steps ≠ [] ∧ t.current_step < t.steps.length)

/-- The second filter of `TaskStore::get_next_action`: non-complete,
non-blocked, without steps. -/
def next_without_steps (t : Task) : Bool :=
  decide (t.status ≠ TaskStatus.Complete ∧ t.status ≠ TaskStatus.Blocked ∧
    t.steps = [])

/-- `TaskStore::get_next_action`: first non-complete, non-blocked task with
an unfinished step list; otherwise the first non-complete, non-blocked task
without steps; the chosen task is promoted from `NotStarted` to `InProgress`
and a clone of it (after promotion) is returned. -/
def TaskStore.get_next_action (s : TaskStore) : TaskStore × Option Task :=
  let task_id : Option Nat :=
    match s.tasks.find? next_with_steps with
    | some t => some t.id
    | none => (s.tasks.find? next_without_steps).map (fun t => t.id)
  match task_id with
  | some id =>
    let r := mutTaskById id (fun t =>
      if t.status = TaskStatus.NotStarted then
        { t with status := TaskStatus.InProgress }
      else t) s.tasks
    ({ s with tasks := r.1 }, r.2)
  | none => (s, none)

/-- Store-level effect of `App::undo_step` (src/tui.rs): decrement
`current_step` when positive. -/
def TaskStore.undo_step (s : TaskStore) (id : Nat) : TaskStore :=
  { s with tasks := (mutTaskById id (fun t =>
      if t.current_step > 0 then { t with current_step := t.current_step - 1 }
      else t) s.tasks).1 }

/-- Store-level effect of `App::save_edited_step` (src/tui.rs): overwrite the
current step's text when the buffer is non-empty and the index is in range. -/
def TaskStore.save_step_edit (s : TaskStore) (id : Nat) (buffer : String) :
    TaskStore :=
  { s with tasks := (mutTaskById id (fun t =>
      if buffer ≠ "" ∧ t.current_step < t.steps.length then
        { t with steps := t.steps.set t.current_step buffer }
      else t) s.tasks).1 }

/-- Store-level effect of `App::save_edited_task_name` (src/tui.rs). -/
def TaskStore.save_name_edit (s : TaskStore) (id : Nat) (buffer : String) :
    TaskStore :=
  { s with tasks := (mutTaskById id (fun t =>
      if buffer ≠ "" then { t with description := buffer } else t) s.tasks).1 }

/-- Store-level effect of forcing a task's status (the drag-and-drop drop and
`App::move_to_in_progress` both perform this unconditional assignment). -/
def TaskStore.set_status (s : TaskStore) (id : Nat) (st : TaskStatus) :
    TaskStore :=
  { s with tasks := (mutTaskById id (fun t => { t with status := st }) s.tasks).1 }

/-- `TaskForm` from src/tui.rs (`active_field`: 0 = description, 1 = step
input, 2 = submit). -/
structure TaskForm where
  description : String
  steps : List String
  current_step_input : String
  active_field : Nat
deriving DecidableEq

instance : Inhabited TaskForm :=
  ⟨{ description := "", steps := [], current_step_input := "", active_field := 0 }⟩

/-- Store-level effect of `App::submit_task` (src/tui.rs), for a non-empty
description: `add_task`, then — when the form collected steps — assign them to
the task found by `get_task_mut(id)`. -/
def TaskStore.submit_form (s : TaskStore) (form : TaskForm) (now : Nat) :
    TaskStore :=
  let r := s.add_task form.description now
  if form.steps ≠ [] then
    { r.1 with tasks := (mutTaskById r.2 (fun t =>
        { t with steps := form.steps }) r.1.tasks).1 }
  else r.1

/-- The per-task data invariant of spec section 3:
`0 ≤ current_step ≤ len(steps)` and `len(steps) == 0 → current_step == 0`
(the lower bound is inherent to `Nat`). -/
def Task.invariant (t : Task) : Prop :=
  t.current_step ≤ t.steps.length ∧ (t.steps.length = 0 → t.current_step = 0)

instance : DecidablePred Task.invariant := fun t => by
  unfold Task.invariant; infer_instance

/-- The store invariant: every task satisfies `Task.invariant`. -/
def TaskStore.invariant (s : TaskStore) : Prop :=
  ∀ t ∈ s.tasks, t.invariant

instance (s : TaskStore) : Decidable s.invariant := by
  unfold TaskStore.invariant; infer_instance

/-! ## The interactive board controller (src/tui.rs) -/

/-- `AppMode` from src/tui.rs. -/
inductive AppMode
  | Navigate
  | AddTask
  | EditStep
  | EditTaskName
  | ConfirmDelete
deriving DecidableEq

/-- `ratatui::layout::Rect` (the fields the mouse handlers read). -/
structure Rect where
  x : Nat
  y : Nat
  width : Nat
  height : Nat
deriving DecidableEq

/-- The `crossterm` key codes handled by src/tui.rs. -/
inductive KeyCode
  | Esc
  | Enter
  | Tab
  | Backspace
  | Char (c : Char)
  | Up
  | Down
  | Left
  | Right
  | OtherKey
deriving DecidableEq

/-- `crossterm::event::MouseButton`. -/
inductive MouseButton
  | Left
  | Right
  | Middle
deriving DecidableEq

/-- The `crossterm::event::MouseEventKind` cases distinguished by
`App::handle_mouse` (everything else falls under `Moved`/`_`). -/
inductive MouseEventKind
  | Down (button : MouseButton)
  | Up (button : MouseButton)
  | Drag (button : MouseButton)
  | Moved
deriving DecidableEq

/-- `crossterm::event::MouseEvent` (the fields read by `handle_mouse`). -/
structure MouseEvent where
  kind : MouseEventKind
  column : Nat
  row : Nat
deriving DecidableEq

/-- One input event per tick, as dispatched by `App::handle_events`
(only key presses reach the key handlers; `Event::Key` with a non-press kind
and all other event kinds fall under `OtherEvent`). -/
inductive InputEvent
  | Key (code : KeyCode)
  | Mouse (m : MouseEvent)
  | OtherEvent
deriving DecidableEq

/-- `App` from src/tui.rs (the read-only `next_meeting` display field is
omitted: no handler reads or writes it). -/
structure App where
  store : TaskStore
  mode : AppMode
  selected_column : Nat
  selected_task : Option Nat
  should_quit : Bool
  form : TaskForm
  edit_buffer : String
  editing_task_id : Option Nat
  deleting_task_id : Option Nat
  column_areas : List Rect
  dragging_task : Option (Nat × Nat)
  drag_target_column : Option Nat
deriving DecidableEq

/-- The fixed column-index → status mapping used throughout src/tui.rs
(`0 => NotStarted, 1 => InProgress, 2 => Blocked, _ => Complete`). -/
def columnStatus : Nat → TaskStatus
  | 0 => TaskStatus.NotStarted
  | 1 => TaskStatus.InProgress
  | 2 => TaskStatus.Blocked
  | _ => TaskStatus.Complete

/-- `App::get_tasks_by_status`. -/
def App.get_tasks_by_status (a : App) (st : TaskStatus) : List Task :=
  a.store.tasks.filter (fun t => decide (t.status = st))

/-- `App::current_status`. -/
def App.current_status (a : App) : TaskStatus :=
  columnStatus a.selected_column

/-- `App::get_selected_task_id`. -/
def App.get_selected_task_id (a : App) : Option Nat :=
  match a.selected_task with
  | none => none
  | some idx => ((a.get_tasks_by_status a.current_status)[idx]?).map (fun t => t.id)

/-- `App::select_next_task`. -/
def App.select_next_task (a : App) : App :=
  let tasks := a.get_tasks_by_status a.current_status
  if tasks = [] then a
  else
    { a with selected_task := some (match a.selected_task with
        | none => 0
        | some i => if i ≥ tasks.length - 1 then tasks.length - 1 else i + 1) }

/-- `App::select_previous_task`. -/
def App.select_previous_task (a : App) : App :=
  let tasks := a.get_tasks_by_status a.current_status
  if tasks = [] then a
  else
    { a with selected_task := some (match a.selected_task with
        | none => 0
        | some 0 => 0
        | some (i + 1) => i) }

/-- `App::move_to_not_started`. -/
def App.move_to_not_started (a : App) : App :=
  match a.get_selected_task_id with
  | some id => { a with store := (a.store.reset_task id).1, selected_task := none }
  | none => a

/-- `App::move_to_in_progress` (deselects only when the task was found). -/
def App.move_to_in_progress (a : App) : App :=
  match a.get_selected_task_id with
  | some id =>
    let r := mutTaskById id (fun t => { t with status := TaskStatus.InProgress })
      a.store.tasks
    match r.2 with
    | some _ => { a with store := { a.store with tasks := r.1 }, selected_task := none }
    | none => a
  | none => a

/-- `App::move_to_blocked`. -/
def App.move_to_blocked (a : App) : App :=
  match a.get_selected_task_id with
  | some id => { a with store := (a.store.block_task id).1, selected_task := none }
  | none => a

/-- `App::complete_task` (the SPACE/`d` key: advance the selected task and
deselect it only when it became `Complete`). -/
def App.complete_task (a : App) : App :=
  match a.get_selected_task_id with
  | none => a
  | some id =>
    let a1 := { a with store := (a.store.complete_task id).1 }
    match a1.store.tasks.find? (fun t => decide (t.id = id)) with
    | some t =>
      if t.status = TaskStatus.Complete then { a1 with selected_task := none }
      else a1
    | none => a1

/-- `App::remove_task` (opens the delete confirmation). -/
def App.remove_task (a : App) : App :=
  match a.get_selected_task_id with
  | none => a
  | some id => { a with deleting_task_id := some id, mode := AppMode.ConfirmDelete }

/-- `App::undo_step`. -/
def App.undo_step (a : App) : App :=
  match a.get_selected_task_id with
  | none => a
  | some id => { a with store := a.store.undo_step id }

/-- `App::start_edit_step`. -/
def App.start_edit_step (a : App) : App :=
  match a.get_selected_task_id with
  | none => a
  | some id =>
    match a.store.tasks.find? (fun t => decide (t.id = id)) with
    | some t =>
      if t.steps ≠ [] ∧ t.current_step < t.steps.length then
        { a with edit_buffer := t.steps.getD t.current_step "",
                 editing_task_id := some id, mode := AppMode.EditStep }
      else a
    | none => a

/-- `App::start_edit_task_name`. -/
def App.start_edit_task_name (a : App) : App :=
  match a.get_selected_task_id with
  | none => a
  | some id =>
    match a.store.tasks.find? (fun t => decide (t.id = id)) with
    | some t =>
      { a with edit_buffer := t.description, editing_task_id := some id,
               mode := AppMode.EditTaskName }
    | none => a

/-- `App::submit_task`: commits the form only when the description is
non-empty; otherwise the mode and form are left as they are. -/
def App.submit_task (a : App) (now : Nat) : App :=
  if a.form.description ≠ "" then
    { a with store := a.store.submit_form a.form now,
             mode := AppMode.Navigate, form := default }
  else a

/-- `App::save_edited_step`: commit (guarded inside `save_step_edit`), then
unconditionally return to `Navigate` and drop the edit buffers. -/
def App.save_edited_step (a : App) : App :=
  let a1 :=
    match a.editing_task_id with
    | some id => { a with store := a.store.save_step_edit id a.edit_buffer }
    | none => a
  { a1 with mode := AppMode.Navigate, edit_buffer := "", editing_task_id := none }

/-- `App::save_edited_task_name`. -/
def App.save_edited_task_name (a : App) : App :=
  let a1 :=
    match a.editing_task_id with
    | some id => { a with store := a.store.save_name_edit id a.edit_buffer }
    | none => a
  { a1 with mode := AppMode.Navigate, edit_buffer := "", editing_task_id := none }

/-- `App::handle_navigate_keys`. -/
def App.handle_navigate_keys (a : App) (key : KeyCode) : App :=
  match key with
  | KeyCode.Char c =>
    if c = 'q' then { a with should_quit := true }
    else if c = 'a' then { a with mode := AppMode.AddTask, form := default }
    else if c = 'n' then a.move_to_not_started
    else if c = 'i' then a.move_to_in_progress
    else if c = 'b' then a.move_to_blocked
    else if c = 'd' ∨ c = ' ' then a.complete_task
    else if c = 'u' then a.undo_step
    else if c = 'e' then a.start_edit_step
    else if c = 'E' then a.start_edit_task_name
    else if c = 'r' then a.remove_task
    else a
  | KeyCode.Left =>
    if a.selected_column > 0 then
      { a with selected_column := a.selected_column - 1, selected_task := none }
    else a
  | KeyCode.Right =>
    if a.selected_column < 3 then
      { a with selected_column := a.selected_column + 1, selected_task := none }
    else a
  | KeyCode.Up => a.select_previous_task
  | KeyCode.Down => a.select_next_task
  | _ => a

/-- `App::handle_form_keys` (the AddTask mode). -/
def App.handle_form_keys (a : App) (key : KeyCode) (now : Nat) : App :=
  match key with
  | KeyCode.Esc => { a with mode := AppMode.Navigate, form := default }
  | KeyCode.Tab =>
    { a with form := { a.form with active_field := (a.form.active_field + 1) % 3 } }
  | KeyCode.Enter =>
    match a.form.active_field with
    | 0 => { a with form := { a.form with active_field := 1 } }
    | 1 =>
      if a.form.current_step_input ≠ "" then
        { a with form := { a.form with
            steps := a.form.steps ++ [a.form.current_step_input],
            current_step_input := "" } }
      else a
    | 2 => a.submit_task now
    | _ => a
  | KeyCode.Char c =>
    match a.form.active_field with
    | 0 => { a with form := { a.form with description := a.form.description.push c } }
    | 1 =>
      { a with form := { a.form with
          current_step_input := a.form.current_step_input.push c } }
    | _ => a
  | KeyCode.Backspace =>
    match a.form.active_field with
    | 0 => { a with form := { a.form with description := a.form.description.dropRight 1 } }
    | 1 =>
      { a with form := { a.form with
          current_step_input := a.form.current_step_input.dropRight 1 } }
    | _ => a
  | _ => a

/-- `App::handle_edit_keys` (the EditStep mode). -/
def App.handle_edit_keys (a : App) (key : KeyCode) : App :=
  match key with
  | KeyCode.Esc =>
    { a with mode := AppMode.Navigate, edit_buffer := "", editing_task_id := none }
  | KeyCode.Enter => a.save_edited_step
  | KeyCode.Char c => { a with edit_buffer := a.edit_buffer.push c }
  | KeyCode.Backspace => { a with edit_buffer := a.edit_buffer.dropRight 1 }
  | _ => a

/-- `App::handle_edit_task_name_keys` (the EditTaskName mode). -/
def App.handle_edit_task_name_keys (a : App) (key : KeyCode) : App :=
  match key with
  | KeyCode.Esc =>
    { a with mode := AppMode.Navigate, edit_buffer := "", editing_task_id := none }
  | KeyCode.Enter => a.save_edited_task_name
  | KeyCode.Char c => { a with edit_buffer := a.edit_buffer.push c }
  | KeyCode.Backspace => { a with edit_buffer := a.edit_buffer.dropRight 1 }
  | _ => a

/-- `App::handle_confirm_keys` (the ConfirmDelete mode). -/
def App.handle_confirm_keys (a : App) (key : KeyCode) : App :=
  match key with
  | KeyCode.Char c =>
    if c = 'y' ∨ c = 'Y' then
      let a1 :=
        match a.deleting_task_id with
        | some id => { a with store := (a.store.remove_task id).1, selected_task := none }
        | none => a
      { a1 with mode := AppMode.Navigate, deleting_task_id := none }
    else if c = 'n' ∨ c = 'N' then
      { a with mode := AppMode.Navigate, deleting_task_id := none }
    else a
  | KeyCode.Esc => { a with mode := AppMode.Navigate, deleting_task_id := none }
  | _ => a

/-- The pointer-down column hit test of `App::handle_mouse`: the first column
rectangle containing the point, with its index. -/
def findHitColumn (areas : List Rect) (x y : Nat) : Option (Nat × Rect) :=
  areas.enum.find? (fun p =>
    decide (x ≥ p.2.x ∧ x < p.2.x + p.2.width ∧ y ≥ p.2.y ∧ y < p.2.y + p.2.height))

/-- The card hit test of `App::handle_mouse`: walk the column's tasks in
display order accumulating card heights (3 lines without steps, 4 with),
returning `(task_idx, task_id)` of the card whose vertical span contains
`relative_y`. -/
def findCardHit (relative_y : Nat) : Nat → Nat → List Task → Option (Nat × Nat)
  | _, _, [] => none
  | task_idx, current_line, t :: ts =>
    let card_height := if t.steps = [] then 3 else 4
    if relative_y ≥ current_line ∧ relative_y < current_line + card_height then
      some (task_idx, t.id)
    else
      findCardHit relative_y (task_idx + 1) (current_line + card_height) ts

/-- The drag-move column resolution of `App::handle_mouse`: first column whose
x-span contains the pointer. -/
def findDragColumn (areas : List Rect) (x : Nat) : Option Nat :=
  (areas.enum.find? (fun p => decide (x ≥ p.2.x ∧ x < p.2.x + p.2.width))).map
    (fun p => p.1)

/-- `App::handle_mouse`: left-button down starts a drag on the hit card (and
moves the selection there), left-button drag retargets the candidate column by
x-coordinate, left-button up applies the drop (forced status overwrite when
the target differs from the origin) and always clears the drag session.
`relative_y` is `y.saturating_sub(area.y + 1)`, i.e. truncated subtraction. -/
def App.handle_mouse (a : App) (m : MouseEvent) : App :=
  let x := m.column
  let y := m.row
  match m.kind with
  | MouseEventKind.Down MouseButton.Left =>
    match findHitColumn a.column_areas x y with
    | none => a
    | some (col_idx, area) =>
      let relative_y := y - (area.y + 1)
      let tasks := a.get_tasks_by_status (columnStatus col_idx)
      match findCardHit relative_y 0 0 tasks with
      | some (task_idx, task_id) =>
        { a with selected_column := col_idx, selected_task := some task_idx,
                 dragging_task := some (task_id, col_idx),
                 drag_target_column := some col_idx }
      | none => { a with selected_column := col_idx }
  | MouseEventKind.Drag MouseButton.Left =>
    if a.dragging_task.isSome then
      match findDragColumn a.column_areas x with
      | some col_idx => { a with drag_target_column := some col_idx }
      | none => a
    else a
  | MouseEventKind.Up MouseButton.Left =>
    let a1 :=
      match a.dragging_task, a.drag_target_column with
      | some (task_id, original_col), some target_col =>
        if target_col ≠ original_col then
          { a with store := a.store.set_status task_id (columnStatus target_col),
                   selected_column := target_col, selected_task := none }
        else a
      | _, _ => a
    { a1 with dragging_task := none, drag_target_column := none }
  | _ => a

/-- `App::handle_events` (one consumed input event): key presses are
dispatched by mode; mouse events are handled only in `Navigate` mode. -/
def App.handle_events (a : App) (e : InputEvent) (now : Nat) : App :=
  match e with
  | InputEvent.Key code =>
    match a.mode with
    | AppMode.Navigate => a.handle_navigate_keys code
    | AppMode.AddTask => a.handle_form_keys code now
    | AppMode.EditStep => a.handle_edit_keys code
    | AppMode.EditTaskName => a.handle_edit_task_name_keys code
    | AppMode.ConfirmDelete => a.handle_confirm_keys code
  | InputEvent.Mouse m =>
    if a.mode = AppMode.Navigate then a.handle_mouse m else a
  | InputEvent.OtherEvent => a

/-! ## The store-mutating operations of claim C1, as one step type -/

/-- The store-mutating operations named by the spec's invariant (section 8):
CLI/engine operations from src/main.rs and the store-level effects of the
board handlers from src/tui.rs. -/
inductive StoreOp
  | addOp (description : String) (now : Nat)
  | advanceOp (id : Nat)
  | blockOp (id : Nat)
  | unblockOp (id : Nat)
  | resetOp (id : Nat)
  | undoOp (id : Nat)
  | submitOp (form : TaskForm) (now : Nat)
  | editStepOp (id : Nat) (buffer : String)
  | editNameOp (id : Nat) (buffer : String)
  | dragOp (id : Nat) (target_col : Nat)
  | removeOp (id : Nat)

/-- Apply one store-mutating operation (the store-level part of the
corresponding source function). -/
def applyOp (s : TaskStore) : StoreOp → TaskStore
  | StoreOp.addOp description now => (s.add_task description now).1
  | StoreOp.advanceOp id => (s.complete_task id).1
  | StoreOp.blockOp id => (s.block_task id).1
  | StoreOp.unblockOp id => (s.unblock_task id).1
  | StoreOp.resetOp id => (s.reset_task id).1
  | StoreOp.undoOp id => s.undo_step id
  | StoreOp.submitOp form now =>
    if form.description ≠ "" then s.submit_form form now else s
  | StoreOp.editStepOp id buffer => s.save_step_edit id buffer
  | StoreOp.editNameOp id buffer => s.save_name_edit id buffer
  | StoreOp.dragOp id target_col => s.set_status id (columnStatus target_col)
  | StoreOp.removeOp id => (s.remove_task id).1

/-! ## Helper lemmas about first-match mutation and search -/

theorem mutById_of_forall_ne (id : Nat) (f : Task → Task × Bool) :
    ∀ ts : List Task, (∀ t ∈ ts, t.id ≠ id) → mutById id f ts = (ts, false) := by
  intro ts
  induction ts with
  | nil => intro _; rfl
  | cons t ts ih =>
    intro h
    have ht : t.id ≠ id := h t (List.mem_cons_self t ts)
    have hts : ∀ u ∈ ts, u.id ≠ id := fun u hu => h u (List.mem_cons_of_mem t hu)
    simp [mutById, ht, ih hts]

theorem mutById_append (id : Nat) (f : Task → Task × Bool) (l₁ : List Task)
    (t : Task) (l₂ : List Task) (h : ∀ u ∈ l₁, u.id ≠ id) (ht : t.id = id) :
    mutById id f (l₁ ++ t :: l₂) = (l₁ ++ (f t).1 :: l₂, (f t).2) := by
  induction l₁ with
  | nil => simp [mutById, ht]
  | cons u l₁ ih =>
    have hu : u.id ≠ id := h u (List.mem_cons_self u l₁)
    have hl : ∀ v ∈ l₁, v.id ≠ id := fun v hv => h v (List.mem_cons_of_mem u hv)
    simp [mutById, hu, ih hl]

theorem mutTaskById_of_forall_ne (id : Nat) (f : Task → Task) :
    ∀ ts : List Task, (∀ t ∈ ts, t.id ≠ id) → mutTaskById id f ts = (ts, none) := by
  intro ts
  induction ts with
  | nil => intro _; rfl
  | cons t ts ih =>
    intro h
    have ht : t.id ≠ id := h t (List.mem_cons_self t ts)
    have hts : ∀ u ∈ ts, u.id ≠ id := fun u hu => h u (List.mem_cons_of_mem t hu)
    simp [mutTaskById, ht, ih hts]

theorem mutTaskById_append (id : Nat) (f : Task → Task) (l₁ : List Task)
    (t : Task) (l₂ : List Task) (h : ∀ u ∈ l₁, u.id ≠ id) (ht : t.id = id) :
    mutTaskById id f (l₁ ++ t :: l₂) = (l₁ ++ f t :: l₂, some (f t)) := by
  induction l₁ with
  | nil => simp [mutTaskById, ht]
  | cons u l₁ ih =>
    have hu : u.id ≠ id := h u (List.mem_cons_self u l₁)
    have hl : ∀ v ∈ l₁, v.id ≠ id := fun v hv => h v (List.mem_cons_of_mem u hv)
    simp [mutTaskById, hu, ih hl]

theorem mem_mutById (id : Nat) (f : Task → Task × Bool) :
    ∀ ts : List Task, ∀ u ∈ (mutById id f ts).1, u ∈ ts ∨ ∃ t ∈ ts, u = (f t).1 := by
  intro ts
  induction ts with
  | nil => intro u hu; simp [mutById] at hu
  | cons t ts ih =>
    intro u hu
    by_cases ht : t.id = id
    · simp only [mutById, if_pos ht, List.mem_cons] at hu
      rcases hu with hu | hu
      · exact Or.inr ⟨t, List.mem_cons_self t ts, hu⟩
      · exact Or.inl (List.mem_cons_of_mem t hu)
    · simp only [mutById, if_neg ht, List.mem_cons] at hu
      rcases hu with hu | hu
      · exact Or.inl (hu ▸ List.mem_cons_self t ts)
      · rcases ih u hu with h | ⟨v, hv, hveq⟩
        · exact Or.inl (List.mem_cons_of_mem t h)
        · exact Or.inr ⟨v, List.mem_cons_of_mem t hv, hveq⟩

theorem mem_mutTaskById (id : Nat) (f : Task → Task) :
    ∀ ts : List Task, ∀ u ∈ (mutTaskById id f ts).1, u ∈ ts ∨ ∃ t ∈ ts, u = f t := by
  intro ts
  induction ts with
  | nil => intro u hu; simp [mutTaskById] at hu
  | cons t ts ih =>
    intro u hu
    by_cases ht : t.id = id
    · simp only [mutTaskById, if_pos ht, List.mem_cons] at hu
      rcases hu with hu | hu
      · exact Or.inr ⟨t, List.mem_cons_self t ts, hu⟩
      · exact Or.inl (List.mem_cons_of_mem t hu)
    · simp only [mutTaskById, if_neg ht, List.mem_cons] at hu
      rcases hu with hu | hu
      · exact Or.inl (hu ▸ List.mem_cons_self t ts)
      · rcases ih u hu with h | ⟨v, hv, hveq⟩
        · exact Or.inl (List.mem_cons_of_mem t h)
        · exact Or.inr ⟨v, List.mem_cons_of_mem t hv, hveq⟩

theorem find?_append_cons {α : Type} (p : α → Bool) (l₁ : List α) (a : α)
    (l₂ : List α) (h : ∀ u ∈ l₁, p u = false) (ha : p a = true) :
    (l₁ ++ a :: l₂).find? p = some a := by
  induction l₁ with
  | nil => simp [List.find?, ha]
  | cons u l₁ ih =>
    have hu : p u = false := h u (List.mem_cons_self u l₁)
    have hl : ∀ v ∈ l₁, p v = false := fun v hv => h v (List.mem_cons_of_mem u hv)
    simp [List.find?, hu, ih hl]

theorem find?_decomp {α : Type} (p : α → Bool) :
    ∀ l : List α, ∀ a : α, l.find? p = some a →
      ∃ l₁ l₂, l = l₁ ++ a :: l₂ ∧ (∀ u ∈ l₁, p u = false) ∧ p a = true := by
  intro l
  induction l with
  | nil => intro a ha; simp [List.find?] at ha
  | cons u l ih =>
    intro a ha
    by_cases hu : p u
    · refine ⟨[], l, ?_, by simp, ?_⟩
      · simp only [List.find?, hu] at ha
        simp_all
      · simp only [List.find?, hu] at ha
        cases ha; assumption
    · simp only [List.find?] at ha
      rw [Bool.eq_false_iff.mpr hu] at ha
      rcases ih a ha with ⟨l₁, l₂, hdec, hpre, hpa⟩
      exact ⟨u :: l₁, l₂, by simp [hdec], by
        intro v hv
        rcases List.mem_cons.mp hv with rfl | hv
        · exact Bool.eq_false_iff.mpr hu
        · exact hpre v hv, hpa⟩

/-- In a list of tasks whose ids are pairwise distinct, every task in the
prefix of a decomposition has an id different from the middle element's. -/
theorem nodup_ids_prefix (l₁ : List Task) (t : Task) (l₂ : List Task)
    (h : ((l₁ ++ t :: l₂).map Task.id).Nodup) : ∀ u ∈ l₁, u.id ≠ t.id := by
  intro u hu
  rw [List.map_append, List.nodup_append] at h
  have hdisj := h.2.2
  intro heq
  exact hdisj (List.mem_map_of_mem Task.id hu) (by simp [heq])

/-! ## C3: the advance operation (`TaskStore::complete_task`) -/

/-- C3: for the task with the given id (the first match, with no earlier task
sharing the id): when its steps are non-empty and `current_step` is below
`len(steps) - 1`, advance increments `current_step` by one and leaves every
other field (in particular `status`) and every other task unchanged, reporting
success; when `current_step = len(steps) - 1` or the steps are empty, it sets
`status = Complete` leaving `current_step` unchanged; for an id not in the
store it reports failure and leaves the store unchanged. -/
theorem complete_task_spec (s : TaskStore) (id : Nat) :
    ((∀ t ∈ s.tasks, t.id ≠ id) → s.complete_task id = (s, false))
    ∧ (∀ l₁ t l₂, s.tasks = l₁ ++ t :: l₂ → (∀ u ∈ l₁, u.id ≠ id) → t.id = id →
        (t.steps ≠ [] → t.current_step < t.steps.length - 1 →
          s.complete_task id =
            ({ s with tasks :=
                l₁ ++ { t with current_step := t.current_step + 1 } :: l₂ }, true))
        ∧ ((t.current_step = t.steps.length - 1 ∨ t.steps = []) →
          s.complete_task id =
            ({ s with tasks :=
                l₁ ++ { t with status := TaskStatus.Complete } :: l₂ }, true))) := by
  constructor
  · intro h
    simp [TaskStore.complete_task, mutById_of_forall_ne id _ s.tasks h]
  · intro l₁ t l₂ hdec hpre hid
    constructor
    · intro hne hlt
      simp only [TaskStore.complete_task, hdec,
        mutById_append id _ l₁ t l₂ hpre hid]
      rw [if_pos ⟨hne, hlt⟩]
    · intro hor
      have hcond : ¬(t.steps ≠ [] ∧ t.current_step < t.steps.length - 1) := by
        rintro ⟨h1, h2⟩
        rcases hor with h3 | h3
        · omega
        · exact h1 h3
      simp only [TaskStore.complete_task, hdec,
        mutById_append id _ l₁ t l₂ hpre hid]
      rw [if_neg hcond]

/-- Witness for C3 at a concrete store: advancing task 1 (steps `[a, b]`,
`current_step = 0`) increments the step and keeps the status. -/
theorem complete_task_spec_witness :
    (TaskStore.complete_task
        ⟨[⟨1, "w", ["a", "b"], 0, TaskStatus.InProgress, none, 0⟩], 2⟩ 1) =
      (⟨[⟨1, "w", ["a", "b"], 1, TaskStatus.InProgress, none, 0⟩], 2⟩, true) :=
  ((complete_task_spec
      ⟨[⟨1, "w", ["a", "b"], 0, TaskStatus.InProgress, none, 0⟩], 2⟩ 1).2
    [] ⟨1, "w", ["a", "b"], 0, TaskStatus.InProgress, none, 0⟩ [] rfl
    (by decide) rfl).1 (by decide) (by decide)

/-! ## C7: the reset operation (`TaskStore::reset_task`) -/

/-- C7: reset is rejected, returning `false` with the store entirely
unchanged, when the id is absent or the (first-matching) task with that id is
`Complete`; otherwise it sets that task's `status := NotStarted`, leaving its
`current_step`, `steps`, `description`, `id` and `created_at`, every other
task, and the next-id counter unchanged. -/
theorem reset_task_spec (s : TaskStore) (id : Nat) :
    ((∀ t ∈ s.tasks, t.id ≠ id) → s.reset_task id = (s, false))
    ∧ (∀ l₁ t l₂, s.tasks = l₁ ++ t :: l₂ → (∀ u ∈ l₁, u.id ≠ id) → t.id = id →
        (t.status = TaskStatus.Complete → s.reset_task id = (s, false))
        ∧ (t.status ≠ TaskStatus.Complete →
            s.reset_task id =
              ({ s with tasks :=
                  l₁ ++ { t with status := TaskStatus.NotStarted } :: l₂ }, true))) := by
  constructor
  · intro h
    simp [TaskStore.reset_task, mutById_of_forall_ne id _ s.tasks h]
  · intro l₁ t l₂ hdec hpre hid
    constructor
    · intro hc
      simp only [TaskStore.reset_task, hdec, mutById_append id _ l₁ t l₂ hpre hid]
      rw [if_neg (by simp [hc])]
      rw [← hdec]
    · intro hnc
      simp only [TaskStore.reset_task, hdec, mutById_append id _ l₁ t l₂ hpre hid]
      rw [if_pos hnc]

/-- Witness for C7 at a concrete store: resetting a blocked task keeps its
progress and only rewrites the status. -/
theorem reset_task_spec_witness :
    (TaskStore.reset_task
        ⟨[⟨1, "w", ["a", "b"], 1, TaskStatus.Blocked, none, 7⟩], 2⟩ 1) =
      (⟨[⟨1, "w", ["a", "b"], 1, TaskStatus.NotStarted, none, 7⟩], 2⟩, true) :=
  ((reset_task_spec
      ⟨[⟨1, "w", ["a", "b"], 1, TaskStatus.Blocked, none, 7⟩], 2⟩ 1).2
    [] ⟨1, "w", ["a", "b"], 1, TaskStatus.Blocked, none, 7⟩ [] rfl
    (by decide) rfl).2 (by decide)

/-! ## C6: block then unblock -/

/-- C6: for an existing task (first match for its id) that is not `Complete`,
`block` succeeds and sets exactly `status := Blocked`; a following `unblock`
succeeds and yields `status = InProgress` precisely when `current_step > 0`
or the steps are non-empty (else `NotStarted`); and neither call changes any
task's `current_step`. -/
theorem block_unblock_spec (s : TaskStore) (id : Nat) (l₁ : List Task) (t : Task)
    (l₂ : List Task) (hdec : s.tasks = l₁ ++ t :: l₂)
    (hpre : ∀ u ∈ l₁, u.id ≠ id) (hid : t.id = id)
    (hnc : t.status ≠ TaskStatus.Complete) :
    (s.block_task id).2 = true
    ∧ (s.block_task id).1.tasks = l₁ ++ { t with status := TaskStatus.Blocked } :: l₂
    ∧ (((s.block_task id).1).unblock_task id).2 = true
    ∧ (((s.block_task id).1).unblock_task id).1.tasks =
        l₁ ++ { t with status :=
          if t.current_step > 0 ∨ t.steps ≠ [] then TaskStatus.InProgress
          else TaskStatus.NotStarted } :: l₂
    ∧ (s.block_task id).1.tasks.map Task.current_step = s.tasks.map Task.current_step
    ∧ (((s.block_task id).1).unblock_task id).1.tasks.map Task.current_step =
        s.tasks.map Task.current_step := by
  have hb : s.block_task id =
      ({ s with tasks := l₁ ++ { t with status := TaskStatus.Blocked } :: l₂ }, true) := by
    simp only [TaskStore.block_task, hdec, mutById_append id _ l₁ t l₂ hpre hid]
    rw [if_pos hnc]
  have hu : ((s.block_task id).1).unblock_task id =
      ({ s with tasks := l₁ ++ { t with status :=
          if t.current_step > 0 ∨ t.steps ≠ [] then TaskStatus.InProgress
          else TaskStatus.NotStarted } :: l₂ }, true) := by
    rw [hb]
    simp only [TaskStore.unblock_task,
      mutById_append id _ l₁ ({ t with status := TaskStatus.Blocked }) l₂ hpre hid]
    simp
  refine ⟨by rw [hb], by rw [hb], by rw [hu], by rw [hu], ?_, ?_⟩
  · rw [hb, hdec]
    simp
  · rw [hu, hdec]
    simp

/-- Witness for C6 at a concrete store: a blocked-then-unblocked task with
`current_step = 1` of 3 steps comes back as `InProgress` with its progress
intact (spec Scenario C). -/
theorem block_unblock_spec_witness :
    ((TaskStore.block_task
        ⟨[⟨1, "w", ["a", "b", "c"], 1, TaskStatus.InProgress, none, 0⟩], 2⟩ 1).1.unblock_task
          1).1.tasks =
      [⟨1, "w", ["a", "b", "c"], 1, TaskStatus.InProgress, none, 0⟩] :=
  (block_unblock_spec
      ⟨[⟨1, "w", ["a", "b", "c"], 1, TaskStatus.InProgress, none, 0⟩], 2⟩ 1
      [] ⟨1, "w", ["a", "b", "c"], 1, TaskStatus.InProgress, none, 0⟩ [] rfl
      (by decide) rfl (by decide)).2.2.2.1

/-! ## C2: next-action selection (`TaskStore::get_next_action`) -/

/-- Over the four statuses, "neither `Complete` nor `Blocked`" is the same as
"in `{NotStarted, InProgress}`"; bridge for the first selection filter. -/
theorem next_with_steps_iff (u : Task) :
    next_with_steps u = true ↔
      ((u.status = TaskStatus.NotStarted ∨ u.status = TaskStatus.InProgress) ∧
        u.steps ≠ [] ∧ u.current_step < u.steps.length) := by
  unfold next_with_steps
  cases u.status <;> simp

/-- Bridge for the second selection filter. -/
theorem next_without_steps_iff (u : Task) :
    next_without_steps u = true ↔
      ((u.status = TaskStatus.NotStarted ∨ u.status = TaskStatus.InProgress) ∧
        u.steps = []) := by
  unfold next_without_steps
  cases u.status <;> simp

/-- C2: for a store with pairwise-distinct task ids, `get_next_action`
(a) returns the earliest-inserted task with status in
`{NotStarted, InProgress}`, non-empty steps and `current_step < len(steps)`,
promoted to `InProgress` when it was `NotStarted`, with exactly that task
updated in the store; (b) when no such task exists, likewise for the
earliest-inserted task with status in `{NotStarted, InProgress}` and empty
steps; (c) returns `none` and leaves the store unchanged when neither exists;
and (d) a returned task is never `Complete` or `Blocked`. -/
theorem get_next_action_spec (s : TaskStore)
    (hnodup : (s.tasks.map Task.id).Nodup) :
    (∀ l₁ t l₂, s.tasks = l₁ ++ t :: l₂ →
      (∀ u ∈ l₁, ¬((u.status = TaskStatus.NotStarted ∨ u.status = TaskStatus.InProgress) ∧
        u.steps ≠ [] ∧ u.current_step < u.steps.length)) →
      ((t.status = TaskStatus.NotStarted ∨ t.status = TaskStatus.InProgress) ∧
        t.steps ≠ [] ∧ t.current_step < t.steps.length) →
      s.get_next_action =
        ({ s with tasks := l₁ ++
            (if t.status = TaskStatus.NotStarted then
              { t with status := TaskStatus.InProgress } else t) :: l₂ },
          some (if t.status = TaskStatus.NotStarted then
            { t with status := TaskStatus.InProgress } else t)))
    ∧ ((∀ u ∈ s.tasks, ¬((u.status = TaskStatus.NotStarted ∨ u.status = TaskStatus.InProgress) ∧
          u.steps ≠ [] ∧ u.current_step < u.steps.length)) →
      ∀ l₁ t l₂, s.tasks = l₁ ++ t :: l₂ →
      (∀ u ∈ l₁, ¬((u.status = TaskStatus.NotStarted ∨ u.status = TaskStatus.InProgress) ∧
        u.steps = [])) →
      ((t.status = TaskStatus.NotStarted ∨ t.status = TaskStatus.InProgress) ∧
        t.steps = []) →
      s.get_next_action =
        ({ s with tasks := l₁ ++
            (if t.status = TaskStatus.NotStarted then
              { t with status := TaskStatus.InProgress } else t) :: l₂ },
          some (if t.status = TaskStatus.NotStarted then
            { t with status := TaskStatus.InProgress } else t)))
    ∧ ((∀ u ∈ s.tasks,
          ¬((u.status = TaskStatus.NotStarted ∨ u.status = TaskStatus.InProgress) ∧
            u.steps ≠ [] ∧ u.current_step < u.steps.length) ∧
          ¬((u.status = TaskStatus.NotStarted ∨ u.status = TaskStatus.InProgress) ∧
            u.steps = [])) →
      s.get_next_action = (s, none))
    ∧ (∀ s' t', s.get_next_action = (s', some t') →
        t'.status ≠ TaskStatus.Complete ∧ t'.status ≠ TaskStatus.Blocked) := by
  have promoted_ok : ∀ u : Task,
      (u.status = TaskStatus.NotStarted ∨ u.status = TaskStatus.InProgress) →
      ((if u.status = TaskStatus.NotStarted then
          { u with status := TaskStatus.InProgress } else u).status ≠ TaskStatus.Complete ∧
       (if u.status = TaskStatus.NotStarted then
          { u with status := TaskStatus.InProgress } else u).status ≠ TaskStatus.Blocked) := by
    intro u hu
    rcases hu with h | h <;> simp [h]
  refine ⟨?_, ?_, ?_, ?_⟩
  · intro l₁ t l₂ hdec hpre ht
    have hfind : s.tasks.find? next_with_steps = some t := by
      rw [hdec]
      exact find?_append_cons next_with_steps l₁ t l₂
        (fun u hu => by
          rw [← Bool.not_eq_true]
          intro hc
          exact hpre u hu ((next_with_steps_iff u).mp hc))
        ((next_with_steps_iff t).mpr ht)
    have hids : ∀ u ∈ l₁, u.id ≠ t.id :=
      nodup_ids_prefix l₁ t l₂ (by rw [← hdec]; exact hnodup)
    have hmut : mutTaskById t.id
        (fun x => if x.status = TaskStatus.NotStarted then
          { x with status := TaskStatus.InProgress } else x) s.tasks =
        (l₁ ++ (if t.status = TaskStatus.NotStarted then
            { t with status := TaskStatus.InProgress } else t) :: l₂,
          some (if t.status = TaskStatus.NotStarted then
            { t with status := TaskStatus.InProgress } else t)) := by
      rw [hdec]
      exact mutTaskById_append t.id _ l₁ t l₂ hids rfl
    simp only [TaskStore.get_next_action, hfind, hmut]
  · intro hall l₁ t l₂ hdec hpre ht
    have hfind1 : s.tasks.find? next_with_steps = none := by
      rw [List.find?_eq_none]
      intro u hu
      intro hc
      exact hall u hu ((next_with_steps_iff u).mp hc)
    have hfind : s.tasks.find? next_without_steps = some t := by
      rw [hdec]
      exact find?_append_cons next_without_steps l₁ t l₂
        (fun u hu => by
          rw [← Bool.not_eq_true]
          intro hc
          exact hpre u hu ((next_without_steps_iff u).mp hc))
        ((next_without_steps_iff t).mpr ht)
    have hids : ∀ u ∈ l₁, u.id ≠ t.id :=
      nodup_ids_prefix l₁ t l₂ (by rw [← hdec]; exact hnodup)
    have hmut : mutTaskById t.id
        (fun x => if x.status = TaskStatus.NotStarted then
          { x with status := TaskStatus.InProgress } else x) s.tasks =
        (l₁ ++ (if t.status = TaskStatus.NotStarted then
            { t with status := TaskStatus.InProgress } else t) :: l₂,
          some (if t.status = TaskStatus.NotStarted then
            { t with status := TaskStatus.InProgress } else t)) := by
      rw [hdec]
      exact mutTaskById_append t.id _ l₁ t l₂ hids rfl
    simp only [TaskStore.get_next_action, hfind1, hfind, Option.map_some', hmut]
  · intro hall
    have hfind1 : s.tasks.find? next_with_steps = none := by
      rw [List.find?_eq_none]
      intro u hu hc
      exact (hall u hu).1 ((next_with_steps_iff u).mp hc)
    have hfind2 : s.tasks.find? next_without_steps = none := by
      rw [List.find?_eq_none]
      intro u hu hc
      exact (hall u hu).2 ((next_without_steps_iff u).mp hc)
    simp only [TaskStore.get_next_action, hfind1, hfind2, Option.map_none']
  · intro s' t' heq
    cases hfind1 : s.tasks.find? next_with_steps with
    | some u =>
      rcases find?_decomp next_with_steps s.tasks u hfind1 with ⟨l₁, l₂, hdec, hpre, hu⟩
      have hids : ∀ v ∈ l₁, v.id ≠ u.id :=
        nodup_ids_prefix l₁ u l₂ (by rw [← hdec]; exact hnodup)
      have hmut : mutTaskById u.id
          (fun x => if x.status = TaskStatus.NotStarted then
            { x with status := TaskStatus.InProgress } else x) s.tasks =
          (l₁ ++ (if u.status = TaskStatus.NotStarted then
              { u with status := TaskStatus.InProgress } else u) :: l₂,
            some (if u.status = TaskStatus.NotStarted then
              { u with status := TaskStatus.InProgress } else u)) := by
        rw [hdec]
        exact mutTaskById_append u.id _ l₁ u l₂ hids rfl
      simp only [TaskStore.get_next_action, hfind1, hmut] at heq
      have h2 : some (if u.status = TaskStatus.NotStarted then
          { u with status := TaskStatus.InProgress } else u) = some t' :=
        congrArg Prod.snd heq
      rw [(Option.some.inj h2).symm]
      exact promoted_ok u ((next_with_steps_iff u).mp hu).1
    | none =>
      cases hfind2 : s.tasks.find? next_without_steps with
      | some u =>
        rcases find?_decomp next_without_steps s.tasks u hfind2 with ⟨l₁, l₂, hdec, hpre, hu⟩
        have hids : ∀ v ∈ l₁, v.id ≠ u.id :=
          nodup_ids_prefix l₁ u l₂ (by rw [← hdec]; exact hnodup)
        have hmut : mutTaskById u.id
            (fun x => if x.status = TaskStatus.NotStarted then
              { x with status := TaskStatus.InProgress } else x) s.tasks =
            (l₁ ++ (if u.status = TaskStatus.NotStarted then
                { u with status := TaskStatus.InProgress } else u) :: l₂,
              some (if u.status = TaskStatus.NotStarted then
                { u with status := TaskStatus.InProgress } else u)) := by
          rw [hdec]
          exact mutTaskById_append u.id _ l₁ u l₂ hids rfl
        simp only [TaskStore.get_next_action, hfind1, hfind2, Option.map_some', hmut] at heq
        have h2 : some (if u.status = TaskStatus.NotStarted then
            { u with status := TaskStatus.InProgress } else u) = some t' :=
          congrArg Prod.snd heq
        rw [(Option.some.inj h2).symm]
        exact promoted_ok u ((next_without_steps_iff u).mp hu).1
      | none =>
        simp only [TaskStore.get_next_action, hfind1, hfind2, Option.map_none'] at heq
        exact absurd (congrArg Prod.snd heq) (by simp)

/-- Witness for C2 at a concrete store: with a completed first task, a
blocked second and an unstarted third with one unfinished step, the third is
selected and promoted to `InProgress`. -/
theorem get_next_action_spec_witness :
    TaskStore.get_next_action
        ⟨[⟨1, "a", [], 0, TaskStatus.Complete, none, 0⟩,
          ⟨2, "b", [], 0, TaskStatus.Blocked, none, 0⟩,
          ⟨3, "c", ["s"], 0, TaskStatus.NotStarted, none, 0⟩], 4⟩ =
      (⟨[⟨1, "a", [], 0, TaskStatus.Complete, none, 0⟩,
          ⟨2, "b", [], 0, TaskStatus.Blocked, none, 0⟩,
          ⟨3, "c", ["s"], 0, TaskStatus.InProgress, none, 0⟩], 4⟩,
        some ⟨3, "c", ["s"], 0, TaskStatus.InProgress, none, 0⟩) :=
  (get_next_action_spec
      ⟨[⟨1, "a", [], 0, TaskStatus.Complete, none, 0⟩,
        ⟨2, "b", [], 0, TaskStatus.Blocked, none, 0⟩,
        ⟨3, "c", ["s"], 0, TaskStatus.NotStarted, none, 0⟩], 4⟩ (by decide)).1
    [⟨1, "a", [], 0, TaskStatus.Complete, none, 0⟩,
      ⟨2, "b", [], 0, TaskStatus.Blocked, none, 0⟩]
    ⟨3, "c", ["s"], 0, TaskStatus.NotStarted, none, 0⟩ [] rfl
    (by decide) (by decide)

/-! ## C9: the "Ship feature" scenario (spec Scenario B) -/

/-- Counterexample to C9 as stated: after adding "Ship feature" with steps
`[draft, review, send]` (the board form-submit path) and advancing twice,
the task's `current_step` is 2 but its status is `NotStarted`, not
`InProgress`: `add` creates the task as `NotStarted` and a step-advance never
touches `status`. -/
theorem scenario_ship_feature_not_in_progress :
    (((((TaskStore.new.submit_form
          { description := "Ship feature", steps := ["draft", "review", "send"],
            current_step_input := "", active_field := 2 } 0).complete_task
        1).1).complete_task 1).1.tasks.map (fun t => (t.current_step, t.status)) =
      [(2, TaskStatus.NotStarted)])
    ∧ TaskStatus.NotStarted ≠ TaskStatus.InProgress := by
  constructor
  · rfl
  · decide

/-- C9 (amended): adding "Ship feature" with steps `[draft, review, send]`
and advancing twice yields `current_step = 2` with status still `NotStarted`
(unchanged from `add`, since a step-advance never modifies `status`), and a
third advance yields status `Complete`. -/
theorem scenario_ship_feature :
    (((((TaskStore.new.submit_form
          { description := "Ship feature", steps := ["draft", "review", "send"],
            current_step_input := "", active_field := 2 } 0).complete_task
        1).1).complete_task 1).1.tasks.map (fun t => (t.current_step, t.status)) =
      [(2, TaskStatus.NotStarted)])
    ∧ ((((((TaskStore.new.submit_form
          { description := "Ship feature", steps := ["draft", "review", "send"],
            current_step_input := "", active_field := 2 } 0).complete_task
        1).1).complete_task 1).1.complete_task 1).1.tasks.map
          (fun t => (t.current_step, t.status)) =
      [(2, TaskStatus.Complete)]) := by
  constructor
  · rfl
  · rfl

/-! ## C1: preservation of the step invariant -/

/-- A status-only update never affects the step invariant. -/
theorem invariant_status_update (t : Task) (st : TaskStatus) (h : t.invariant) :
    ({ t with status := st } : Task).invariant := h

/-- Counterexample to C1 as stated: the invariant precondition alone is not
enough.  In a store whose `next_id` counter collides with an existing task's
id (reachable, since `load()` deserialises `next_id` unvalidated), a form
submit creates the new task and then assigns the collected steps to the FIRST
task matching the fresh id — the old task — whose `current_step` (3) then
exceeds the new step count (1). -/
theorem submit_with_stale_next_id_breaks_invariant :
    TaskStore.invariant ⟨[⟨1, "old", ["a", "b", "c"], 3, TaskStatus.NotStarted, none, 0⟩], 1⟩
    ∧ ¬ TaskStore.invariant
        (applyOp ⟨[⟨1, "old", ["a", "b", "c"], 3, TaskStatus.NotStarted, none, 0⟩], 1⟩
          (StoreOp.submitOp
            { description := "x", steps := ["s"], current_step_input := "",
              active_field := 2 } 0)) := by
  decide

/-- C1 (amended): for a store whose tasks all satisfy the step invariant and
whose `next_id` counter does not collide with any existing task id, every
store-mutating operation (add, advance, block, unblock, reset, undo-one-step,
form submit, step edit, name edit, drag-drop status overwrite, remove)
preserves `0 ≤ current_step ≤ len(steps)` and
`len(steps) = 0 → current_step = 0` for every task. -/
theorem applyOp_preserves_invariant (s : TaskStore) (op : StoreOp)
    (hinv : s.invariant) (hfresh : ∀ t ∈ s.tasks, t.id ≠ s.next_id) :
    (applyOp s op).invariant := by
  cases op with
  | addOp description now =>
    intro u hu
    simp only [applyOp, TaskStore.add_task] at hu
    rcases List.mem_append.mp hu with h | h
    · exact hinv u h
    · rcases List.mem_singleton.mp h with rfl
      exact ⟨Nat.zero_le _, fun _ => rfl⟩
  | advanceOp id =>
    intro u hu
    simp only [applyOp, TaskStore.complete_task] at hu
    rcases mem_mutById id _ s.tasks u hu with h | ⟨t, htm, rfl⟩
    · exact hinv u h
    · have hti := hinv t htm
      by_cases hc : t.steps ≠ [] ∧ t.current_step < t.steps.length - 1
      · simp only [if_pos hc]
        have h1 := hti.1
        refine ⟨?_, ?_⟩ <;> simp only []
        · omega
        · intro hlen; omega
      · simp only [if_neg hc]
        exact invariant_status_update t TaskStatus.Complete hti
  | blockOp id =>
    intro u hu
    simp only [applyOp, TaskStore.block_task] at hu
    rcases mem_mutById id _ s.tasks u hu with h | ⟨t, htm, rfl⟩
    · exact hinv u h
    · have hti := hinv t htm
      by_cases hc : t.status ≠ TaskStatus.Complete
      · simp only [if_pos hc]
        exact invariant_status_update t TaskStatus.Blocked hti
      · simp only [if_neg hc]
        exact hti
  | unblockOp id =>
    intro u hu
    simp only [applyOp, TaskStore.unblock_task] at hu
    rcases mem_mutById id _ s.tasks u hu with h | ⟨t, htm, rfl⟩
    · exact hinv u h
    · have hti := hinv t htm
      by_cases hc : t.status = TaskStatus.Blocked
      · simp only [if_pos hc]
        exact invariant_status_update t _ hti
      · simp only [if_neg hc]
        exact hti
  | resetOp id =>
    intro u hu
    simp only [applyOp, TaskStore.reset_task] at hu
    rcases mem_mutById id _ s.tasks u hu with h | ⟨t, htm, rfl⟩
    · exact hinv u h
    · have hti := hinv t htm
      by_cases hc : t.status ≠ TaskStatus.Complete
      · simp only [if_pos hc]
        exact invariant_status_update t TaskStatus.NotStarted hti
      · simp only [if_neg hc]
        exact hti
  | undoOp id =>
    intro u hu
    simp only [applyOp, TaskStore.undo_step] at hu
    rcases mem_mutTaskById id _ s.tasks u hu with h | ⟨t, htm, rfl⟩
    · exact hinv u h
    · have hti := hinv t htm
      by_cases hc : t.current_step > 0
      · simp only [if_pos hc]
        have h1 := hti.1
        have h2 := hti.2
        refine ⟨?_, ?_⟩ <;> simp only []
        · omega
        · intro hlen; omega
      · simp only [if_neg hc]
        exact hti
  | submitOp form now =>
    by_cases hd : form.description ≠ ""
    · simp only [applyOp, if_pos hd, TaskStore.submit_form, TaskStore.add_task]
      by_cases hs : form.steps ≠ []
      · rw [if_pos hs]
        have hmut := mutTaskById_append s.next_id
          (fun t => { t with steps := form.steps }) s.tasks
          { id := s.next_id, description := form.description, steps := [],
            current_step := 0, status := TaskStatus.NotStarted, completed := none,
            created_at := now } [] hfresh rfl
        intro u hu
        simp only [hmut] at hu
        rcases List.mem_append.mp hu with h | h
        · exact hinv u h
        · rcases List.mem_singleton.mp h with rfl
          exact ⟨Nat.zero_le _, fun _ => rfl⟩
      · rw [if_neg hs]
        intro u hu
        rcases List.mem_append.mp hu with h | h
        · exact hinv u h
        · rcases List.mem_singleton.mp h with rfl
          exact ⟨Nat.zero_le _, fun _ => rfl⟩
    · simp only [applyOp, if_neg hd]
      exact hinv
  | editStepOp id buffer =>
    intro u hu
    simp only [applyOp, TaskStore.save_step_edit] at hu
    rcases mem_mutTaskById id _ s.tasks u hu with h | ⟨t, htm, rfl⟩
    · exact hinv u h
    · have hti := hinv t htm
      by_cases hc : buffer ≠ "" ∧ t.current_step < t.steps.length
      · simp only [if_pos hc]
        refine ⟨?_, ?_⟩ <;> simp only [List.length_set]
        · exact hti.1
        · exact hti.2
      · simp only [if_neg hc]
        exact hti
  | editNameOp id buffer =>
    intro u hu
    simp only [applyOp, TaskStore.save_name_edit] at hu
    rcases mem_mutTaskById id _ s.tasks u hu with h | ⟨t, htm, rfl⟩
    · exact hinv u h
    · have hti := hinv t htm
      by_cases hc : buffer ≠ ""
      · simp only [if_pos hc]
        exact hti
      · simp only [if_neg hc]
        exact hti
  | dragOp id target_col =>
    intro u hu
    simp only [applyOp, TaskStore.set_status] at hu
    rcases mem_mutTaskById id _ s.tasks u hu with h | ⟨t, htm, rfl⟩
    · exact hinv u h
    · exact invariant_status_update t _ (hinv t htm)
  | removeOp id =>
    intro u hu
    simp only [applyOp, TaskStore.remove_task] at hu
    exact hinv u (List.mem_of_mem_filter hu)

/-- Witness for C1 (amended) at a concrete store: advancing task 1 in a
well-formed store keeps the invariant. -/
theorem applyOp_preserves_invariant_witness :
    TaskStore.invariant
      (applyOp ⟨[⟨1, "w", ["a", "b"], 0, TaskStatus.InProgress, none, 0⟩], 2⟩
        (StoreOp.advanceOp 1)) :=
  applyOp_preserves_invariant
    ⟨[⟨1, "w", ["a", "b"], 0, TaskStatus.InProgress, none, 0⟩], 2⟩
    (StoreOp.advanceOp 1) (by decide) (by decide)

/-! ## C8: Esc cancels every non-Navigate mode without touching the store -/

/-- C8: from each non-`Navigate` mode, the Esc key press returns the
controller to `Navigate`, discards that mode's transient buffers (the whole
form, the edit buffer and editing id, the pending-delete id) and changes
nothing else — in particular the task store is untouched. -/
theorem esc_cancels_to_navigate (a : App) (now : Nat) :
    (a.mode = AppMode.AddTask →
      a.handle_events (InputEvent.Key KeyCode.Esc) now =
        { a with mode := AppMode.Navigate, form := default })
    ∧ (a.mode = AppMode.EditStep →
      a.handle_events (InputEvent.Key KeyCode.Esc) now =
        { a with mode := AppMode.Navigate, edit_buffer := "", editing_task_id := none })
    ∧ (a.mode = AppMode.EditTaskName →
      a.handle_events (InputEvent.Key KeyCode.Esc) now =
        { a with mode := AppMode.Navigate, edit_buffer := "", editing_task_id := none })
    ∧ (a.mode = AppMode.ConfirmDelete →
      a.handle_events (InputEvent.Key KeyCode.Esc) now =
        { a with mode := AppMode.Navigate, deleting_task_id := none }) := by
  refine ⟨?_, ?_, ?_, ?_⟩ <;> intro h <;>
    simp [App.handle_events, h, App.handle_form_keys, App.handle_edit_keys,
      App.handle_edit_task_name_keys, App.handle_confirm_keys]

/-- Witness for C8 at concrete states in each of the four modes, with
non-trivial buffers that get discarded. -/
theorem esc_cancels_to_navigate_witness :
    (App.handle_events
        ⟨⟨[], 1⟩, AppMode.AddTask, 0, none, false, ⟨"d", ["s"], "x", 1⟩, "b",
          some 1, some 2, [], none, none⟩ (InputEvent.Key KeyCode.Esc) 0 =
      { (⟨⟨[], 1⟩, AppMode.AddTask, 0, none, false, ⟨"d", ["s"], "x", 1⟩, "b",
          some 1, some 2, [], none, none⟩ : App) with
          mode := AppMode.Navigate, form := default })
    ∧ (App.handle_events
        ⟨⟨[], 1⟩, AppMode.EditStep, 0, none, false, default, "b",
          some 1, none, [], none, none⟩ (InputEvent.Key KeyCode.Esc) 0 =
      { (⟨⟨[], 1⟩, AppMode.EditStep, 0, none, false, default, "b",
          some 1, none, [], none, none⟩ : App) with
          mode := AppMode.Navigate, edit_buffer := "", editing_task_id := none })
    ∧ (App.handle_events
        ⟨⟨[], 1⟩, AppMode.EditTaskName, 0, none, false, default, "b",
          some 1, none, [], none, none⟩ (InputEvent.Key KeyCode.Esc) 0 =
      { (⟨⟨[], 1⟩, AppMode.EditTaskName, 0, none, false, default, "b",
          some 1, none, [], none, none⟩ : App) with
          mode := AppMode.Navigate, edit_buffer := "", editing_task_id := none })
    ∧ (App.handle_events
        ⟨⟨[], 1⟩, AppMode.ConfirmDelete, 0, none, false, default, "",
          none, some 2, [], none, none⟩ (InputEvent.Key KeyCode.Esc) 0 =
      { (⟨⟨[], 1⟩, AppMode.ConfirmDelete, 0, none, false, default, "",
          none, some 2, [], none, none⟩ : App) with
          mode := AppMode.Navigate, deleting_task_id := none }) :=
  ⟨(esc_cancels_to_navigate _ 0).1 rfl, (esc_cancels_to_navigate _ 0).2.1 rfl,
    (esc_cancels_to_navigate _ 0).2.2.1 rfl, (esc_cancels_to_navigate _ 0).2.2.2 rfl⟩

/-! ## C10: mouse events are ignored outside Navigate mode -/

/-- C10: while the controller is in any mode other than `Navigate`, a pointer
event changes nothing at all — store, selection, drag state and mode all stay
exactly as they were (`handle_events` only forwards mouse events in
`Navigate`). -/
theorem mouse_ignored_outside_navigate (a : App) (m : MouseEvent) (now : Nat)
    (h : a.mode ≠ AppMode.Navigate) :
    a.handle_events (InputEvent.Mouse m) now = a := by
  simp [App.handle_events, h]

/-- Witness for C10: a left-button press landing on the board while the
add-task form is open does nothing. -/
theorem mouse_ignored_outside_navigate_witness :
    App.handle_events
        ⟨⟨[⟨1, "w", [], 0, TaskStatus.NotStarted, none, 0⟩], 2⟩, AppMode.AddTask,
          0, none, false, default, "", none, none, [⟨0, 0, 20, 30⟩], none, none⟩
        (InputEvent.Mouse ⟨MouseEventKind.Down MouseButton.Left, 3, 4⟩) 0 =
      ⟨⟨[⟨1, "w", [], 0, TaskStatus.NotStarted, none, 0⟩], 2⟩, AppMode.AddTask,
        0, none, false, default, "", none, none, [⟨0, 0, 20, 30⟩], none, none⟩ :=
  mouse_ignored_outside_navigate _ _ 0 (by decide)

/-! ## C4: pointer-up drop semantics -/

/-- C4: on a left-button pointer-up ending a drag session:
(1) when the candidate target column equals the origin column, the store (and
hence the dragged task's status) is unchanged; (2) when it differs, the
dragged task's status is unconditionally overwritten with the target column's
mapped status — no hypothesis on the old or new status, so this also applies
from or to `Complete`, bypassing the validated transitions; (3) in every case
(including a release with no drag in progress or no tracked rectangle ever
hit) the drag session state is cleared. -/
theorem drag_drop_spec (a : App) (x y : Nat) :
    (∀ tid oc, a.dragging_task = some (tid, oc) → a.drag_target_column = some oc →
      (a.handle_mouse ⟨MouseEventKind.Up MouseButton.Left, x, y⟩).store = a.store)
    ∧ (∀ tid oc tc, a.dragging_task = some (tid, oc) →
        a.drag_target_column = some tc → tc ≠ oc →
        ∀ l₁ t l₂, a.store.tasks = l₁ ++ t :: l₂ →
          (∀ u ∈ l₁, u.id ≠ tid) → t.id = tid →
          (a.handle_mouse ⟨MouseEventKind.Up MouseButton.Left, x, y⟩).store.tasks =
            l₁ ++ { t with status := columnStatus tc } :: l₂)
    ∧ ((a.handle_mouse ⟨MouseEventKind.Up MouseButton.Left, x, y⟩).dragging_task = none
        ∧ (a.handle_mouse ⟨MouseEventKind.Up MouseButton.Left, x, y⟩).drag_target_column
            = none) := by
  refine ⟨?_, ?_, ?_⟩
  · intro tid oc h1 h2
    simp [App.handle_mouse, h1, h2]
  · intro tid oc tc h1 h2 hne l₁ t l₂ hdec hpre hid
    have hmut : mutTaskById tid (fun u => { u with status := columnStatus tc })
        a.store.tasks =
        (l₁ ++ { t with status := columnStatus tc } :: l₂,
          some { t with status := columnStatus tc }) := by
      rw [hdec]
      exact mutTaskById_append tid _ l₁ t l₂ hpre hid
    simp [App.handle_mouse, h1, h2, hne, TaskStore.set_status, hmut]
  · rcases h1 : a.dragging_task with _ | ⟨tid, oc⟩ <;>
      rcases h2 : a.drag_target_column with _ | tc <;>
      simp [App.handle_mouse, h1, h2]

/-- Witness for C4: dropping a `NotStarted` task onto the Complete column
(index 3) jumps it straight to `Complete`. -/
theorem drag_drop_spec_witness :
    (App.handle_mouse
        ⟨⟨[⟨1, "w", [], 0, TaskStatus.NotStarted, none, 0⟩], 2⟩, AppMode.Navigate,
          0, none, false, default, "", none, none, [], some (1, 0), some 3⟩
        ⟨MouseEventKind.Up MouseButton.Left, 9, 9⟩).store.tasks =
      [⟨1, "w", [], 0, TaskStatus.Complete, none, 0⟩] :=
  (drag_drop_spec
      ⟨⟨[⟨1, "w", [], 0, TaskStatus.NotStarted, none, 0⟩], 2⟩, AppMode.Navigate,
        0, none, false, default, "", none, none, [], some (1, 0), some 3⟩ 9 9).2.1
    1 0 3 rfl rfl (by decide)
    [] ⟨1, "w", [], 0, TaskStatus.NotStarted, none, 0⟩ [] rfl (by decide) rfl

/-! ## C5: pointer-down hit-testing -/

/-- Counterexample to C5 as stated: a point *before the first card's span*
does not resolve to "no card".  With one column rectangle at `y = 0`, cards
start at row `y = 1`; a left-button press at row 0 (the column's top border,
inside the rectangle but above the first card) is clamped by
`saturating_sub` to offset 0 and starts a drag on card 0. -/
theorem click_above_first_card_starts_drag :
    (App.handle_mouse
        ⟨⟨[⟨1, "w", [], 0, TaskStatus.NotStarted, none, 0⟩], 2⟩, AppMode.Navigate,
          0, none, false, default, "", none, none, [⟨0, 0, 20, 30⟩], none, none⟩
        ⟨MouseEventKind.Down MouseButton.Left, 5, 0⟩).dragging_task = some (1, 0) := by
  rfl

/-- C5 (amended): pointer-down hit-testing accumulates card heights (3 lines
for a task with no steps, 4 with steps) in display order; for heights
`[3, 4, 3]` offsets 0–2 resolve card 0, 3–6 card 1, 7–9 card 2, and an offset
at or past the cumulative end (≥ 10) resolves to no card; whenever no card is
resolved no drag begins; but a point within the column at or above the first
card's row is clamped by the saturating subtraction to offset 0 and resolves
card 0, beginning a drag, whenever the column has a card. -/
theorem hit_testing_spec :
    (∀ t₁ t₂ t₃ : Task, t₁.steps = [] → t₂.steps ≠ [] → t₃.steps = [] →
      ∀ ry : Nat, findCardHit ry 0 0 [t₁, t₂, t₃] =
        (if ry < 3 then some (0, t₁.id)
         else if ry < 7 then some (1, t₂.id)
         else if ry < 10 then some (2, t₃.id)
         else none))
    ∧ (∀ (a : App) (x y ci : Nat) (area : Rect),
        findHitColumn a.column_areas x y = some (ci, area) →
        findCardHit (y - (area.y + 1)) 0 0
          (a.get_tasks_by_status (columnStatus ci)) = none →
        (a.handle_mouse ⟨MouseEventKind.Down MouseButton.Left, x, y⟩).dragging_task =
          a.dragging_task)
    ∧ (∀ (a : App) (x y ci : Nat) (area : Rect) (t₀ : Task) (rest : List Task),
        findHitColumn a.column_areas x y = some (ci, area) →
        y ≤ area.y + 1 →
        a.get_tasks_by_status (columnStatus ci) = t₀ :: rest →
        (a.handle_mouse ⟨MouseEventKind.Down MouseButton.Left, x, y⟩).dragging_task =
          some (t₀.id, ci)) := by
  refine ⟨?_, ?_, ?_⟩
  · intro t₁ t₂ t₃ h1 h2 h3 ry
    simp only [findCardHit, h1, h3, if_neg h2]
    split_ifs <;> first | rfl | omega
  · intro a x y ci area hcol hnone
    simp only [App.handle_mouse, hcol, hnone]
  · intro a x y ci area t₀ rest hcol hy hfil
    have h0 : y - (area.y + 1) = 0 := Nat.sub_eq_zero_of_le hy
    have hcard : findCardHit (y - (area.y + 1)) 0 0
        (a.get_tasks_by_status (columnStatus ci)) = some (0, t₀.id) := by
      rw [h0, hfil]
      by_cases hs : t₀.steps = [] <;> simp [findCardHit, hs]
    simp only [App.handle_mouse, hcol, hcard]

/-- Witness for C5 (amended) at concrete inputs: in a column with card
heights `[3, 4, 3]` (tasks 1, 2, 3), a press at row 5 (offset 4) drags
card 1 — and via the table, offset 10 resolves no card. -/
theorem hit_testing_spec_witness :
    (findCardHit 4 0 0
        [⟨1, "a", [], 0, TaskStatus.NotStarted, none, 0⟩,
         ⟨2, "b", ["s"], 0, TaskStatus.NotStarted, none, 0⟩,
         ⟨3, "c", [], 0, TaskStatus.NotStarted, none, 0⟩] = some (1, 2))
    ∧ (findCardHit 10 0 0
        [⟨1, "a", [], 0, TaskStatus.NotStarted, none, 0⟩,
         ⟨2, "b", ["s"], 0, TaskStatus.NotStarted, none, 0⟩,
         ⟨3, "c", [], 0, TaskStatus.NotStarted, none, 0⟩] = none) :=
  ⟨hit_testing_spec.1 ⟨1, "a", [], 0, TaskStatus.NotStarted, none, 0⟩
      ⟨2, "b", ["s"], 0, TaskStatus.NotStarted, none, 0⟩
      ⟨3, "c", [], 0, TaskStatus.NotStarted, none, 0⟩ rfl (by decide) rfl 4,
    hit_testing_spec.1 ⟨1, "a", [], 0, TaskStatus.NotStarted, none, 0⟩
      ⟨2, "b", ["s"], 0, TaskStatus.NotStarted, none, 0⟩
      ⟨3, "c", [], 0, TaskStatus.NotStarted, none, 0⟩ rfl (by decide) rfl 10⟩

end Flowbridge
